import Mathlib

/-!
# Verification of the collabnotes note controller

Shallow embedding of `src/backend/src/controllers/noteController.js`
(the Note Access & Mutation Service): data model, error taxonomy, and the
six operations `getNotes`, `getNote`, `createNote`, `updateNote`,
`deleteNote`, `shareNote`, followed by theorems checking the spec's claims.

Mongo/Mongoose object ids are modelled as `Nat`; the document store as a
`List Note`; timestamps as `Nat`. Each mutating operation returns its HTTP
response (as an `Except`) together with the resulting store, so that frame
conditions ("the note remains stored") are expressible.
-/

namespace CollabNotes

/-- Per-collaborator permission enum (`'read' | 'write'` in the schema). -/
inductive Permission where
  | read
  | write
deriving Repr, DecidableEq

/-- One entry of a note's `collaborators` array: `{ userId, permission }`. -/
structure Collaborator where
  userId : Nat
  permission : Permission
deriving Repr, DecidableEq

/-- The `Note` document (fields used by the controller). -/
structure Note where
  id : Nat
  title : String
  content : String
  createdBy : Nat
  collaborators : List Collaborator
  isArchived : Bool
  lastUpdated : Nat
deriving Repr, DecidableEq

/-- The `User` document as read by the controller (`_id`, `name`, `email`). -/
structure User where
  id : Nat
  name : String
  email : String
deriving Repr, DecidableEq

/-- Error taxonomy of the controller's non-2xx responses. `internal` is the
catch-all produced by each handler's `catch` block (HTTP 500). -/
inductive NoteError where
  | notFound (msg : String)
  | forbidden (msg : String)
  | validation (msg : String)
  | internal (msg : String)
deriving Repr, DecidableEq

/-- HTTP status each error constructor is sent with. -/
def NoteError.status : NoteError → Nat
  | .notFound _ => 404
  | .forbidden _ => 403
  | .validation _ => 400
  | .internal _ => 500

/-- A call to `notifyCollaborators(noteId, message, excludedUserId)`. -/
structure Notification where
  noteId : Nat
  message : String
  excludedUserId : Nat
deriving Repr, DecidableEq

/-- Modelled from the spec: the socket layer (`src/socket/handler.js` is not
under `src/`) — `notify(noteId, message, excludedUserId)` is a best-effort
push to all current watchers of `noteId` except `excludedUserId`.  Given the
watcher list, this is the set of users the message is delivered to. -/
def deliveredTo (watchers : List Nat) (notif : Notification) : List Nat :=
  watchers.filter (fun w => !(w == notif.excludedUserId))

/-- `Note.findById(id)`: first document whose `_id` matches. -/
def findNote : List Note → Nat → Option Note
  | [], _ => none
  | n :: t, noteId => if n.id == noteId then some n else findNote t noteId

/-- Replace the stored document with id `noteId` by `note'`
(the effect of `findByIdAndUpdate` / `note.save()` on the store). -/
def storeNote : List Note → Nat → Note → List Note
  | [], _, _ => []
  | n :: t, noteId, note' =>
    (if n.id == noteId then note' else n) :: storeNote t noteId note'

/-- `note.deleteOne()`: remove the first stored document with this id. -/
def eraseNote : List Note → Nat → List Note
  | [], _ => []
  | n :: ns, i => if n.id == i then ns else n :: eraseNote ns i

/-- `note.collaborators.find(c => c.userId._id.equals(uid))`. -/
def findCollab (cs : List Collaborator) (uid : Nat) : Option Collaborator :=
  cs.find? (fun c => c.userId == uid)

/-! ## getNote (lines 75–124) -/

/-- Successful `GET /notes/:id` payload: the note plus the derived
`isOwnedByCurrentUser` and `userPermission` fields. -/
structure GetNoteResponse where
  note : Note
  isOwnedByCurrentUser : Bool
  userPermission : Permission
deriving Repr, DecidableEq

/-- `getNote` (controller lines 75–124): 404 if the id does not resolve,
403 unless the requester is the creator or a listed collaborator, else the
note with derived permission fields. -/
def getNote (db : List Note) (noteId : Nat) (userId : Nat) :
    Except NoteError GetNoteResponse :=
  match findNote db noteId with
  | none => .error (.notFound "Note not found")
  | some note =>
    let isCreator := note.createdBy == userId
    let collaborator := findCollab note.collaborators userId
    let hasAccess := isCreator || collaborator.isSome
    if !hasAccess then
      .error (.forbidden "Access denied")
    else
      .ok { note := note
            isOwnedByCurrentUser := isCreator
            userPermission :=
              if isCreator then .write
              else match collaborator with
                   | some c => c.permission
                   | none => .read }

/-! ## updateNote (lines 152–233) -/

/-- The notification text of line 222:
`` `Note "${updatedNote.title}" was updated by ${req.user.name}` ``. -/
def updateMessage (title name : String) : String :=
  s!"Note \"{title}\" was updated by {name}"

/-- The `$set` document built at lines 202–205: only provided fields, plus
`lastUpdated` unconditionally. Applied to the stored note this is
`findByIdAndUpdate(id, { $set: updateFields }, { new: true })`. -/
def applyUpdate (note : Note) (title? content? : Option String) (now : Nat) :
    Note :=
  { note with
    title := title?.getD note.title
    content := content?.getD note.content
    lastUpdated := now }

/-- `updateNote` (controller lines 152–233): 404 if absent, 403 unless the
requester is the creator or a `write` collaborator; otherwise applies the
partial update, emits a notification excluding the requester, and returns
the updated note together with the new store. -/
def updateNote (db : List Note) (noteId : Nat) (user : User)
    (title? content? : Option String) (now : Nat) :
    Except NoteError (Note × Notification) × List Note :=
  match findNote db noteId with
  | none => (.error (.notFound "Note not found"), db)
  | some note =>
    let isCreator := note.createdBy == user.id
    let collaborator := findCollab note.collaborators user.id
    let canWrite := isCreator ||
      (match collaborator with
       | some c => c.permission == .write
       | none => false)
    if !canWrite then
      (.error (.forbidden "Write access denied"), db)
    else
      let updated := applyUpdate note title? content? now
      let notif : Notification :=
        { noteId := noteId
          message := updateMessage updated.title user.name
          excludedUserId := user.id }
      (.ok (updated, notif), storeNote db noteId updated)

/-! ## createNote (lines 129–147) -/

/-- Modelled from the spec: the `Note` Mongoose model
(`src/backend/src/models/Note.js` is not under `src/`) requires `title`
to be non-empty after trimming; `note.save()` rejects a document whose
title is missing or trims to empty (i.e. consists of whitespace only). -/
def titleValid (title? : Option String) : Bool :=
  match title? with
  | none => false
  | some t => !(t.toList.all Char.isWhitespace)

/-- Modelled from the spec: a freshly constructed `Note` document —
`content` is optional with an empty default, `collaborators` starts empty,
`isArchived` defaults to false, `lastUpdated` is set at creation time. -/
def newNote (newId : Nat) (title? content? : Option String) (userId now : Nat) :
    Note :=
  { id := newId
    title := title?.getD ""
    content := content?.getD ""
    createdBy := userId
    collaborators := []
    isArchived := false
    lastUpdated := now }

/-- `createNote` (controller lines 129–147): builds the document and calls
`save()`. The controller itself performs no validation; a model validation
failure thrown by `save()` lands in the `catch` block, which answers
HTTP 500 `'Error creating note'`. -/
def createNote (db : List Note) (user : User)
    (title? content? : Option String) (newId now : Nat) :
    Except NoteError Note × List Note :=
  if !(titleValid title?) then
    (.error (.internal "Error creating note"), db)
  else
    let note := newNote newId title? content? user.id now
    (.ok note, db ++ [note])

/-! ## deleteNote (lines 238–256) -/

/-- `deleteNote` (controller lines 238–256): 404 if absent, 403 unless the
requester is the creator, else the note is removed from the store. -/
def deleteNote (db : List Note) (noteId : Nat) (userId : Nat) :
    Except NoteError String × List Note :=
  match findNote db noteId with
  | none => (.error (.notFound "Note not found"), db)
  | some note =>
    if !(note.createdBy == userId) then
      (.error (.forbidden "Only the creator can delete the note"), db)
    else
      (.ok "Note deleted successfully", eraseNote db noteId)

/-! ## shareNote (lines 261–335) -/

/-- The notification text of line 322:
`` `You were given ${permission} access to "${note.title}" by ${req.user.name}` ``. -/
def shareMessage (permission title name : String) : String :=
  s!"You were given {permission} access to \"{title}\" by {name}"

/-- Permission parsed from a request string already checked against
`['read', 'write']`. -/
def permOfString (s : String) : Permission :=
  if s == "write" then .write else .read

/-- Lines 300–311: if an entry for the user exists, its permission is
overwritten in place (first match, as `Array.prototype.find` returns);
otherwise a new entry is pushed at the end. -/
def upsertCollab : List Collaborator → Nat → Permission → List Collaborator
  | [], uid, p => [{ userId := uid, permission := p }]
  | c :: cs, uid, p =>
    if c.userId == uid then { c with permission := p } :: cs
    else c :: upsertCollab cs uid p

/-- `User.findOne({ email })`. -/
def findUserByEmail (users : List User) (email : String) : Option User :=
  users.find? (fun u => u.email == email)

/-- `shareNote` (controller lines 261–335): 400 on a permission string
outside `['read','write']`, 404 if the note is absent, 403 unless the
requester is the creator, 404 if no user has the given email; otherwise
upserts the collaborator entry, saves, and emits a notification that
passes the target collaborator's id as `excludedUserId`. -/
def shareNote (db : List Note) (users : List User) (noteId : Nat)
    (reqUser : User) (email : String) (permission : String) :
    Except NoteError (Note × Notification) × List Note :=
  if !(permission == "read" || permission == "write") then
    (.error (.validation "Invalid permission type"), db)
  else
    match findNote db noteId with
    | none => (.error (.notFound "Note not found"), db)
    | some note =>
      if !(note.createdBy == reqUser.id) then
        (.error (.forbidden "Only the creator can share the note"), db)
      else
        match findUserByEmail users email with
        | none => (.error (.notFound "User not found"), db)
        | some collaborator =>
          let p := permOfString permission
          let note' :=
            { note with
              collaborators := upsertCollab note.collaborators collaborator.id p }
          let notif : Notification :=
            { noteId := noteId
              message := shareMessage permission note'.title reqUser.name
              excludedUserId := collaborator.id }
          (.ok (note', notif), storeNote db noteId note')

/-! ## getNotes (lines 8–70) -/

/-- The Mongo query at lines 17–23: notes the user created or collaborates
on, filtered by the archived flag. -/
def matchesQuery (userId : Nat) (showArchived : Bool) (n : Note) : Bool :=
  (n.createdBy == userId || n.collaborators.any (fun c => c.userId == userId)) &&
  n.isArchived == showArchived

/-- Stable insertion for the `lastUpdated: -1` (descending) sort. -/
def insertDesc (n : Note) : List Note → List Note
  | [] => [n]
  | x :: xs =>
    if n.lastUpdated < x.lastUpdated then x :: insertDesc n xs
    else n :: x :: xs

/-- `sort({ lastUpdated: -1 })` — stable descending sort. -/
def sortByUpdatedDesc : List Note → List Note
  | [] => []
  | n :: ns => insertDesc n (sortByUpdatedDesc ns)

/-- The `pagination` object of the list response. -/
structure Pagination where
  currentPage : Nat
  totalPages : Nat
  totalNotes : Nat
  hasNextPage : Bool
  hasPrevPage : Bool
deriving Repr, DecidableEq

/-- The `GET /notes` response body. -/
structure NotesResponse where
  notes : List Note
  pagination : Pagination
deriving Repr, DecidableEq

/-- `getNotes` (controller lines 8–70): on an empty query result at page 1
it short-circuits to the zero shape with `totalPages: 0`; otherwise it
counts, computes `Math.ceil(totalNotes / limit) || 1` pages, and returns
the sorted page slice with pagination metadata. -/
def getNotes (db : List Note) (userId : Nat) (page limit : Nat)
    (showArchived : Bool) : NotesResponse :=
  let query := db.filter (matchesQuery userId showArchived)
  let hasNotes := !query.isEmpty
  if !hasNotes && page == 1 then
    { notes := []
      pagination :=
        { currentPage := 1, totalPages := 0, totalNotes := 0
          hasNextPage := false, hasPrevPage := false } }
  else
    let totalNotes := query.length
    let ceilPages := (totalNotes + limit - 1) / limit
    let totalPages := if ceilPages == 0 then 1 else ceilPages
    let notes := ((sortByUpdatedDesc query).drop ((page - 1) * limit)).take limit
    { notes := notes
      pagination :=
        { currentPage := page, totalPages := totalPages, totalNotes := totalNotes
          hasNextPage := decide (page < totalPages)
          hasPrevPage := decide (1 < page) } }

/-! ## Helper lemmas -/

/-- Number of collaborator entries for a given user id. -/
def collabCount (cs : List Collaborator) (uid : Nat) : Nat :=
  (cs.filter (fun c => c.userId == uid)).length

theorem findCollab_isSome_iff (cs : List Collaborator) (uid : Nat) :
    (findCollab cs uid).isSome = true ↔ ∃ c ∈ cs, c.userId = uid := by
  simp [findCollab, List.find?_isSome]

theorem findCollab_some (cs : List Collaborator) (uid : Nat) (c : Collaborator)
    (h : findCollab cs uid = some c) : c ∈ cs ∧ c.userId = uid :=
  ⟨List.mem_of_find?_eq_some h, by simpa using List.find?_some h⟩

theorem collabCount_cons (c : Collaborator) (cs : List Collaborator) (uid : Nat) :
    collabCount (c :: cs) uid =
      if c.userId = uid then collabCount cs uid + 1 else collabCount cs uid := by
  by_cases h : c.userId = uid <;> simp [collabCount, List.filter_cons, h]

theorem findCollab_of_mem_unique (cs : List Collaborator) (c : Collaborator)
    (uid : Nat) (hmem : c ∈ cs) (hc : c.userId = uid)
    (huniq : collabCount cs uid ≤ 1) : findCollab cs uid = some c := by
  induction cs with
  | nil => cases hmem
  | cons h t ih =>
    rcases List.mem_cons.mp hmem with rfl | hmemt
    · simp [findCollab, List.find?_cons, hc]
    · by_cases hh : h.userId = uid
      · exfalso
        have h1 : 1 ≤ collabCount t uid := by
          have : c ∈ t.filter (fun x => x.userId == uid) :=
            List.mem_filter.mpr ⟨hmemt, by simp [hc]⟩
          have := List.length_pos.mpr (List.ne_nil_of_mem this)
          simpa [collabCount] using this
        rw [collabCount_cons, if_pos hh] at huniq
        omega
      · have hfc : findCollab (h :: t) uid = findCollab t uid := by
          simp [findCollab, List.find?_cons, hh]
        rw [collabCount_cons, if_neg hh] at huniq
        rw [hfc]
        exact ih hmemt huniq

/-- The boolean write test at lines 167–168 holds iff the requester is the
creator or some collaborator entry for them carries `write` (uniqueness of
the entry per user id is the data-model invariant). -/
theorem canWrite_iff (note : Note) (uid : Nat)
    (huniq : collabCount note.collaborators uid ≤ 1) :
    (note.createdBy == uid ||
      (match findCollab note.collaborators uid with
       | some c => c.permission == Permission.write
       | none => false)) = true ↔
    (note.createdBy = uid ∨
      ∃ c ∈ note.collaborators, c.userId = uid ∧ c.permission = .write) := by
  constructor
  · intro h
    rw [Bool.or_eq_true] at h
    rcases h with h1 | h2
    · exact Or.inl (by simpa using h1)
    · cases hfc : findCollab note.collaborators uid with
      | none => rw [hfc] at h2; cases h2
      | some c =>
        rw [hfc] at h2
        obtain ⟨hmem, huid⟩ := findCollab_some _ _ _ hfc
        exact Or.inr ⟨c, hmem, huid, by simpa using h2⟩
  · rintro (h | ⟨c, hmem, huid, hperm⟩)
    · simp [h]
    · have hfc := findCollab_of_mem_unique _ _ _ hmem huid huniq
      simp [hfc, hperm]

/-- The boolean access test at lines 86–88 holds iff the requester is the
creator or has some collaborator entry. -/
theorem hasAccess_iff (note : Note) (uid : Nat) :
    (note.createdBy == uid || (findCollab note.collaborators uid).isSome) = true ↔
    (note.createdBy = uid ∨ ∃ c ∈ note.collaborators, c.userId = uid) := by
  rw [Bool.or_eq_true, findCollab_isSome_iff]
  simp

/-- C5: for every existing note N and user U, `getNote(N,U)` succeeds iff U
is the owner of N or appears in collaborators(N) with any permission; a user
with neither role gets Forbidden (not NotFound), and NotFound occurs only
when the id does not resolve. -/
theorem getNote_access_iff (db : List Note) (noteId userId : Nat) :
    (findNote db noteId = none →
       getNote db noteId userId = .error (.notFound "Note not found")) ∧
    (∀ note, findNote db noteId = some note →
       ((∃ r, getNote db noteId userId = .ok r) ↔
          (note.createdBy = userId ∨ ∃ c ∈ note.collaborators, c.userId = userId)) ∧
       (¬(note.createdBy = userId ∨ ∃ c ∈ note.collaborators, c.userId = userId) →
          getNote db noteId userId = .error (.forbidden "Access denied")) ∧
       (∀ msg, getNote db noteId userId ≠ .error (.notFound msg))) := by
  constructor
  · intro h
    simp [getNote, h]
  · intro note hfind
    by_cases hacc : note.createdBy = userId ∨ ∃ c ∈ note.collaborators, c.userId = userId
    · have hb : (note.createdBy == userId ||
          (findCollab note.collaborators userId).isSome) = true :=
        (hasAccess_iff note userId).mpr hacc
      refine ⟨⟨fun _ => hacc, fun _ => ?_⟩, fun hn => absurd hacc hn,
        fun msg => by simp [getNote, hfind, hb]⟩
      cases hres : getNote db noteId userId with
      | ok r => exact ⟨r, rfl⟩
      | error e =>
        exfalso
        simp only [getNote, hfind, hb] at hres
        simp at hres
    · have hb : (note.createdBy == userId ||
          (findCollab note.collaborators userId).isSome) = false := by
        cases hval : (note.createdBy == userId ||
            (findCollab note.collaborators userId).isSome) with
        | false => rfl
        | true => exact absurd ((hasAccess_iff note userId).mp hval) hacc
      refine ⟨⟨fun h => ?_, fun h => absurd h hacc⟩,
        fun _ => by simp [getNote, hfind, hb], fun msg => by simp [getNote, hfind, hb]⟩
      obtain ⟨r, hr⟩ := h
      simp only [getNote, hfind, hb] at hr
      simp at hr

theorem getNote_access_iff_witness :
    getNote [⟨10, "T", "c", 1, [⟨2, .read⟩], false, 0⟩] 10 5 =
      .error (.forbidden "Access denied") :=
  ((getNote_access_iff [⟨10, "T", "c", 1, [⟨2, .read⟩], false, 0⟩] 10 5).2
    ⟨10, "T", "c", 1, [⟨2, .read⟩], false, 0⟩ rfl).2.1 (by decide)

/-- C4: for every existing note N and user U, `updateNote(N,U,...)`
succeeds iff U is the owner or a collaborator with `write` permission;
otherwise it fails Forbidden, and NotFound when N does not exist.
(The per-user uniqueness of collaborator entries is the data-model
invariant.) -/
theorem updateNote_access_iff (db : List Note) (noteId : Nat) (user : User)
    (title? content? : Option String) (now : Nat) :
    (findNote db noteId = none →
       updateNote db noteId user title? content? now =
         (.error (.notFound "Note not found"), db)) ∧
    (∀ note, findNote db noteId = some note →
       collabCount note.collaborators user.id ≤ 1 →
       ((∃ r, (updateNote db noteId user title? content? now).1 = .ok r) ↔
          (note.createdBy = user.id ∨
           ∃ c ∈ note.collaborators, c.userId = user.id ∧ c.permission = .write)) ∧
       (¬(note.createdBy = user.id ∨
           ∃ c ∈ note.collaborators, c.userId = user.id ∧ c.permission = .write) →
          updateNote db noteId user title? content? now =
            (.error (.forbidden "Write access denied"), db))) := by
  constructor
  · intro h
    simp [updateNote, h]
  · intro note hfind huniq
    by_cases hw : note.createdBy = user.id ∨
        ∃ c ∈ note.collaborators, c.userId = user.id ∧ c.permission = .write
    · have hb : (note.createdBy == user.id ||
          (match findCollab note.collaborators user.id with
           | some c => c.permission == Permission.write
           | none => false)) = true :=
        (canWrite_iff note user.id huniq).mpr hw
      refine ⟨⟨fun _ => hw, fun _ => ?_⟩, fun hn => absurd hw hn⟩
      cases hres : (updateNote db noteId user title? content? now).1 with
      | ok r => exact ⟨r, rfl⟩
      | error e =>
        exfalso
        simp only [updateNote, hfind, hb] at hres
        simp at hres
    · have hb : (note.createdBy == user.id ||
          (match findCollab note.collaborators user.id with
           | some c => c.permission == Permission.write
           | none => false)) = false := by
        cases hval : (note.createdBy == user.id ||
            (match findCollab note.collaborators user.id with
             | some c => c.permission == Permission.write
             | none => false)) with
        | false => rfl
        | true => exact absurd ((canWrite_iff note user.id huniq).mp hval) hw
      refine ⟨⟨fun h => ?_, fun h => absurd h hw⟩,
        fun _ => by simp [updateNote, hfind, hb]⟩
      obtain ⟨r, hr⟩ := h
      simp only [updateNote, hfind, hb] at hr
      simp at hr

theorem updateNote_access_iff_witness :
    updateNote [⟨10, "T", "c", 1, [⟨2, .read⟩], false, 0⟩] 10 ⟨2, "Bob", "b@x"⟩
        (some "U") none 7 =
      (.error (.forbidden "Write access denied"),
       [⟨10, "T", "c", 1, [⟨2, .read⟩], false, 0⟩]) :=
  ((updateNote_access_iff [⟨10, "T", "c", 1, [⟨2, .read⟩], false, 0⟩] 10
      ⟨2, "Bob", "b@x"⟩ (some "U") none 7).2
    ⟨10, "T", "c", 1, [⟨2, .read⟩], false, 0⟩ rfl (by decide)).2 (by decide)

/-- C6: for every existing note N and user U, `deleteNote(N,U)` succeeds
iff U is the owner; every other user (including write collaborators) gets
Forbidden and the note remains stored. -/
theorem deleteNote_owner_only (db : List Note) (noteId userId : Nat) :
    (findNote db noteId = none →
       deleteNote db noteId userId = (.error (.notFound "Note not found"), db)) ∧
    (∀ note, findNote db noteId = some note →
       ((∃ r, (deleteNote db noteId userId).1 = .ok r) ↔ note.createdBy = userId) ∧
       (note.createdBy ≠ userId →
          deleteNote db noteId userId =
            (.error (.forbidden "Only the creator can delete the note"), db) ∧
          findNote (deleteNote db noteId userId).2 noteId = some note)) := by
  constructor
  · intro h
    simp [deleteNote, h]
  · intro note hfind
    by_cases howner : note.createdBy = userId
    · constructor
      · exact ⟨fun _ => howner,
          fun _ => ⟨"Note deleted successfully", by simp [deleteNote, hfind, howner]⟩⟩
      · intro hn
        exact absurd howner hn
    · have hb : (note.createdBy == userId) = false := by
        simpa using howner
      have herr : deleteNote db noteId userId =
          (.error (.forbidden "Only the creator can delete the note"), db) := by
        simp [deleteNote, hfind, hb]
      refine ⟨⟨fun h => ?_, fun h => absurd h howner⟩,
        fun _ => ⟨herr, by rw [herr]; exact hfind⟩⟩
      obtain ⟨r, hr⟩ := h
      rw [herr] at hr
      simp at hr

theorem deleteNote_owner_only_witness :
    deleteNote [⟨10, "T", "c", 1, [⟨2, .write⟩], false, 0⟩] 10 2 =
      (.error (.forbidden "Only the creator can delete the note"),
       [⟨10, "T", "c", 1, [⟨2, .write⟩], false, 0⟩]) :=
  (((deleteNote_owner_only [⟨10, "T", "c", 1, [⟨2, .write⟩], false, 0⟩] 10 2).2
    ⟨10, "T", "c", 1, [⟨2, .write⟩], false, 0⟩ rfl).2 (by decide)).1

/-- C8: a successful `updateNote` changes only the supplied fields; an
omitted `title`/`content` retains its prior value, `lastUpdated` is always
set to the current time (even when the supplied values equal the stored
ones), and `id`, `createdBy`, `collaborators`, `isArchived` are unchanged. -/
theorem updateNote_frame (db : List Note) (noteId : Nat) (user : User)
    (title? content? : Option String) (now : Nat) (note note' : Note)
    (notif : Notification)
    (hfind : findNote db noteId = some note)
    (hok : (updateNote db noteId user title? content? now).1 = .ok (note', notif)) :
    note'.id = note.id ∧ note'.createdBy = note.createdBy ∧
    note'.collaborators = note.collaborators ∧ note'.isArchived = note.isArchived ∧
    note'.lastUpdated = now ∧
    (title? = none → note'.title = note.title) ∧
    (∀ v, title? = some v → note'.title = v) ∧
    (content? = none → note'.content = note.content) ∧
    (∀ v, content? = some v → note'.content = v) ∧
    (updateNote db noteId user title? content? now).2 = storeNote db noteId note' := by
  cases hb : (note.createdBy == user.id ||
      (match findCollab note.collaborators user.id with
       | some c => c.permission == Permission.write
       | none => false)) with
  | false =>
    exfalso
    simp only [updateNote, hfind, hb] at hok
    simp at hok
  | true =>
    have heq : updateNote db noteId user title? content? now =
        (.ok (applyUpdate note title? content? now,
              { noteId := noteId
                message := updateMessage (applyUpdate note title? content? now).title
                  user.name
                excludedUserId := user.id }),
         storeNote db noteId (applyUpdate note title? content? now)) := by
      simp [updateNote, hfind, hb]
    rw [heq] at hok
    simp only [Except.ok.injEq, Prod.mk.injEq] at hok
    obtain ⟨h1, h2⟩ := hok
    subst h1
    refine ⟨rfl, rfl, rfl, rfl, rfl, ?_, ?_, ?_, ?_, by rw [heq]⟩
    · intro ht
      simp [applyUpdate, ht]
    · intro v ht
      simp [applyUpdate, ht]
    · intro hc
      simp [applyUpdate, hc]
    · intro v hc
      simp [applyUpdate, hc]

theorem updateNote_frame_witness :
    (⟨10, "T", "new", 1, [], false, 5⟩ : Note).title =
      (⟨10, "T", "c", 1, [], false, 0⟩ : Note).title ∧
    (⟨10, "T", "new", 1, [], false, 5⟩ : Note).lastUpdated = 5 ∧
    (⟨10, "T", "new", 1, [], false, 5⟩ : Note).collaborators =
      (⟨10, "T", "c", 1, [], false, 0⟩ : Note).collaborators := by
  have h := updateNote_frame [⟨10, "T", "c", 1, [], false, 0⟩] 10 ⟨1, "Alice", "a@x"⟩
      none (some "new") 5 ⟨10, "T", "c", 1, [], false, 0⟩ ⟨10, "T", "new", 1, [], false, 5⟩
      ⟨10, updateMessage "T" "Alice", 1⟩ rfl rfl
  exact ⟨h.2.2.2.2.2.1 rfl, h.2.2.2.2.1, h.2.2.1⟩

/-- C10: `updateNote` performs no input validation on the new values — it
never fails with a ValidationError, and for any write-authorized requester
every supplied `title`/`content` value (the empty string included) is
accepted and stored verbatim. -/
theorem updateNote_no_validation (db : List Note) (noteId : Nat) (user : User)
    (title? content? : Option String) (now : Nat) :
    (∀ msg, (updateNote db noteId user title? content? now).1 ≠
       .error (.validation msg)) ∧
    (∀ note, findNote db noteId = some note →
       collabCount note.collaborators user.id ≤ 1 →
       (note.createdBy = user.id ∨
        ∃ c ∈ note.collaborators, c.userId = user.id ∧ c.permission = .write) →
       (updateNote db noteId user title? content? now).1 =
         .ok (applyUpdate note title? content? now,
              { noteId := noteId
                message := updateMessage (applyUpdate note title? content? now).title
                  user.name
                excludedUserId := user.id }) ∧
       (applyUpdate note title? content? now).title = title?.getD note.title ∧
       (applyUpdate note title? content? now).content = content?.getD note.content) := by
  constructor
  · intro msg
    cases hfind : findNote db noteId with
    | none => simp [updateNote, hfind]
    | some note =>
      cases hb : (note.createdBy == user.id ||
          (match findCollab note.collaborators user.id with
           | some c => c.permission == Permission.write
           | none => false)) with
      | false => simp [updateNote, hfind, hb]
      | true => simp [updateNote, hfind, hb]
  · intro note hfind huniq hw
    have hb : (note.createdBy == user.id ||
        (match findCollab note.collaborators user.id with
         | some c => c.permission == Permission.write
         | none => false)) = true :=
      (canWrite_iff note user.id huniq).mpr hw
    exact ⟨by simp [updateNote, hfind, hb], rfl, rfl⟩

theorem updateNote_no_validation_witness :
    (updateNote [⟨10, "T", "c", 1, [], false, 0⟩] 10 ⟨1, "Alice", "a@x"⟩
        (some "") none 5).1 =
      .ok (⟨10, "", "c", 1, [], false, 5⟩,
           ⟨10, updateMessage "" "Alice", 1⟩) := by
  have h := (updateNote_no_validation [⟨10, "T", "c", 1, [], false, 0⟩] 10
      ⟨1, "Alice", "a@x"⟩ (some "") none 5).2 ⟨10, "T", "c", 1, [], false, 0⟩
      rfl (by decide) (Or.inl rfl)
  exact h.1

/-- Observes whether a response error is the ValidationError class. -/
def isValidationError : NoteError → Bool
  | .validation _ => true
  | _ => false

/-- C2 counterexample: with a title that is empty after trimming,
`createNote` answers the catch-all internal error (HTTP 500), not a
ValidationError — the controller performs no local validation, so the
model's rejection lands in the `catch` block at lines 143–146. -/
theorem createNote_empty_title_counterexample :
    createNote [] ⟨1, "Alice", "a@x"⟩ (some "  ") none 5 0 =
      (.error (.internal "Error creating note"), []) ∧
    isValidationError (.internal "Error creating note") = false ∧
    NoteError.status (.internal "Error creating note") = 500 :=
  ⟨rfl, rfl, rfl⟩

/-- C2 amended: whenever the supplied title is missing or empty after
trimming, `createNote` fails — but with the internal `'Error creating
note'` error (HTTP 500), not a ValidationError — and no note is created
(the store is unchanged). -/
theorem createNote_invalid_title (db : List Note) (user : User)
    (title? content? : Option String) (newId now : Nat)
    (h : titleValid title? = false) :
    createNote db user title? content? newId now =
      (.error (.internal "Error creating note"), db) := by
  simp [createNote, h]

theorem createNote_invalid_title_witness :
    createNote [] ⟨2, "Bob", "b@x"⟩ none none 9 3 =
      (.error (.internal "Error creating note"), []) :=
  createNote_invalid_title [] ⟨2, "Bob", "b@x"⟩ none none 9 3 rfl

/-- C9 counterexample: with zero matching notes and `page = 2`, `getNotes`
does not return the page-1 zero-result shape: the short-circuit at line 30
requires `page === 1`, so the general path runs and produces
`totalPages = 1` (from `Math.ceil(0/limit) || 1`), `currentPage = 2` and
`hasPrevPage = true`. -/
theorem getNotes_page2_counterexample :
    getNotes [] 7 2 10 false = ⟨[], ⟨2, 1, 0, false, true⟩⟩ ∧
    (⟨2, 1, 0, false, true⟩ : Pagination) ≠ ⟨1, 0, 0, false, false⟩ :=
  ⟨rfl, by decide⟩

/-- C9 amended: with zero matching notes, page 1 returns exactly the
zero-result shape with `totalPages = 0`; a `page > 1` request with zero
results is still not an error, but it returns the empty list with
`currentPage = page`, `totalPages = 1`, `totalNotes = 0` and
`hasPrevPage = true` rather than the page-1 zero shape. -/
theorem getNotes_zero_results (db : List Note) (userId limit : Nat)
    (showArchived : Bool)
    (hempty : db.filter (matchesQuery userId showArchived) = []) :
    getNotes db userId 1 limit showArchived = ⟨[], ⟨1, 0, 0, false, false⟩⟩ ∧
    (∀ page, 1 < page →
       getNotes db userId page limit showArchived =
         ⟨[], ⟨page, 1, 0, false, true⟩⟩) := by
  constructor
  · simp [getNotes, hempty]
  · intro page hp
    have hp1 : (page == 1) = false := by
      simp
      omega
    have hceil : (limit - 1) / limit = 0 := by
      cases limit with
      | zero => rfl
      | succ k => exact Nat.div_eq_of_lt (by omega)
    have hnext : decide (page < 1) = false := by
      simp
      omega
    have hprev : decide (1 < page) = true := by
      simp [hp]
    simp [getNotes, hempty, hp1, sortByUpdatedDesc, hceil, hnext, hprev]
    omega

theorem getNotes_zero_results_witness :
    getNotes [] 7 1 10 false = ⟨[], ⟨1, 0, 0, false, false⟩⟩ ∧
    getNotes [] 7 3 10 false = ⟨[], ⟨3, 1, 0, false, true⟩⟩ :=
  ⟨(getNotes_zero_results [] 7 10 false rfl).1,
   (getNotes_zero_results [] 7 10 false rfl).2 3 (by decide)⟩

/-- C1: at a concrete successful share (owner Alice shares note 10 with
Bob while Carol is already a collaborator), line 323 passes the target
Bob's id as `excludedUserId`, so under the notification interface's
semantics the message goes to every watcher of the note EXCEPT Bob: the
target is the one user not notified, while the other collaborators are.
(The message itself does name the permission, title and owner name.) -/
theorem shareNote_excludes_target :
    (shareNote [⟨10, "Trip Plan", "stuff", 1, [⟨3, .read⟩], false, 100⟩]
        [⟨1, "Alice", "a@x"⟩, ⟨2, "Bob", "b@x"⟩, ⟨3, "Carol", "c@x"⟩]
        10 ⟨1, "Alice", "a@x"⟩ "b@x" "read").1 =
      .ok (⟨10, "Trip Plan", "stuff", 1, [⟨3, .read⟩, ⟨2, .read⟩], false, 100⟩,
           ⟨10, shareMessage "read" "Trip Plan" "Alice", 2⟩) ∧
    deliveredTo [1, 2, 3] ⟨10, shareMessage "read" "Trip Plan" "Alice", 2⟩ =
      [1, 3] :=
  ⟨rfl, rfl⟩

/-- C3: at a concrete self-share (owner Alice invokes `shareNote` with her
own email), the call succeeds — there is no self-share guard at lines
277–311 — and appends an entry for the owner, so the owner appears in the
note's collaborators list. -/
theorem shareNote_self_share_owner_in_collaborators :
    (shareNote [⟨10, "Trip Plan", "stuff", 1, [], false, 100⟩]
        [⟨1, "Alice", "a@x"⟩] 10 ⟨1, "Alice", "a@x"⟩ "a@x" "write").1 =
      .ok (⟨10, "Trip Plan", "stuff", 1, [⟨1, .write⟩], false, 100⟩,
           ⟨10, shareMessage "write" "Trip Plan" "Alice", 1⟩) ∧
    (⟨10, "Trip Plan", "stuff", 1, [⟨1, .write⟩], false, 100⟩ : Note).createdBy ∈
      ((⟨10, "Trip Plan", "stuff", 1, [⟨1, .write⟩], false, 100⟩ : Note).collaborators.map
        Collaborator.userId) :=
  ⟨rfl, by decide⟩

/-- After an upsert the target user has exactly one entry (given the
data-model invariant of at most one entry before). -/
theorem upsertCollab_count (cs : List Collaborator) (uid : Nat) (p : Permission)
    (h : collabCount cs uid ≤ 1) :
    collabCount (upsertCollab cs uid p) uid = 1 := by
  induction cs with
  | nil => simp [upsertCollab, collabCount]
  | cons c t ih =>
    by_cases hc : c.userId = uid
    · rw [collabCount_cons, if_pos hc] at h
      have ht : collabCount t uid = 0 := by omega
      simp [upsertCollab, hc, collabCount_cons, ht]
    · rw [collabCount_cons, if_neg hc] at h
      have hb : (c.userId == uid) = false := by simpa using hc
      rw [upsertCollab, if_neg (by simpa using hc), collabCount_cons, if_neg hc]
      exact ih h

/-- Upserting an already-present user leaves the list length unchanged. -/
theorem upsertCollab_length (cs : List Collaborator) (uid : Nat) (p : Permission)
    (h : 1 ≤ collabCount cs uid) :
    (upsertCollab cs uid p).length = cs.length := by
  induction cs with
  | nil => simp [collabCount] at h
  | cons c t ih =>
    by_cases hc : c.userId = uid
    · simp [upsertCollab, hc]
    · have hb : (c.userId == uid) = false := by simpa using hc
      rw [collabCount_cons, if_neg hc] at h
      simp [upsertCollab, hb, ih h]

/-- Upserting the same user/permission twice is the same as doing it once. -/
theorem upsertCollab_idem (cs : List Collaborator) (uid : Nat) (p : Permission) :
    upsertCollab (upsertCollab cs uid p) uid p = upsertCollab cs uid p := by
  induction cs with
  | nil => simp [upsertCollab]
  | cons c t ih =>
    by_cases hc : c.userId = uid
    · simp [upsertCollab, hc]
    · have hb : (c.userId == uid) = false := by simpa using hc
      simp [upsertCollab, hb, ih]

/-- After an upsert the first entry found for the user carries the new
permission. -/
theorem upsertCollab_find (cs : List Collaborator) (uid : Nat) (p : Permission) :
    findCollab (upsertCollab cs uid p) uid = some ⟨uid, p⟩ := by
  induction cs with
  | nil => simp [upsertCollab, findCollab]
  | cons c t ih =>
    obtain ⟨cu, cp⟩ := c
    by_cases hc : cu = uid
    · subst hc
      simp [upsertCollab, findCollab, List.find?_cons]
    · have hb : (cu == uid) = false := by simpa using hc
      simpa [upsertCollab, findCollab, List.find?_cons, hb] using ih

/-- An upsert leaves every other user's entries untouched. -/
theorem upsertCollab_filter_other (cs : List Collaborator) (uid : Nat)
    (p : Permission) (uid' : Nat) (hne : uid' ≠ uid) :
    (upsertCollab cs uid p).filter (fun c => c.userId == uid') =
      cs.filter (fun c => c.userId == uid') := by
  induction cs with
  | nil => simp [upsertCollab, Ne.symm hne]
  | cons c t ih =>
    by_cases hc : c.userId = uid
    · have hne' : (c.userId == uid') = false := by
        simp
        omega
      simp [upsertCollab, hc, List.filter_cons, hne', Ne.symm hne]
    · have hb : (c.userId == uid) = false := by simpa using hc
      simp only [upsertCollab, hb, Bool.false_eq_true, if_false, List.filter_cons]
      rw [ih]

/-- A stored note is found back by its id. -/
theorem findNote_storeNote (db : List Note) (noteId : Nat) (note note' : Note)
    (hfind : findNote db noteId = some note) (hid : note'.id = noteId) :
    findNote (storeNote db noteId note') noteId = some note' := by
  induction db with
  | nil => simp [findNote] at hfind
  | cons n t ih =>
    cases hn : (n.id == noteId) with
    | true => simp [storeNote, findNote, hn, hid]
    | false =>
      have hfind' : findNote t noteId = some note := by
        simpa [findNote, hn] using hfind
      simpa [storeNote, findNote, hn] using ih hfind'

/-- Re-storing the same document is a no-op on the store. -/
theorem storeNote_storeNote (db : List Note) (noteId : Nat) (note' : Note) :
    storeNote (storeNote db noteId note') noteId note' =
      storeNote db noteId note' := by
  induction db with
  | nil => rfl
  | cons n t ih =>
    cases hn : (n.id == noteId) with
    | true => simp [storeNote, hn, ite_self, ih]
    | false => simp [storeNote, hn, ih]

/-- A note found by id carries that id. -/
theorem findNote_id (db : List Note) (noteId : Nat) (note : Note)
    (h : findNote db noteId = some note) : note.id = noteId := by
  induction db with
  | nil => simp [findNote] at h
  | cons n t ih =>
    cases hn : (n.id == noteId) with
    | true =>
      simp [findNote, hn] at h
      rw [← h]
      simpa using hn
    | false =>
      simp [findNote, hn] at h
      exact ih h

/-- The note produced by a successful `shareNote` (lines 300–313): the
original note with the collaborator entry upserted. -/
def sharedNote (note : Note) (targetId : Nat) (p : Permission) : Note :=
  { note with collaborators := upsertCollab note.collaborators targetId p }

/-- C7: `shareNote` is an idempotent upsert on the collaborators list.
Under the operation's success conditions: the call yields exactly one
entry for the target user; repeating the identical call returns the very
same response and store; and when the user already had an entry, the
permission is overwritten in place — the entry found for the user carries
the new permission, `collaborators.length` is unchanged, and every other
user's entries are untouched. -/
theorem shareNote_idempotent_upsert (db : List Note) (users : List User)
    (noteId : Nat) (reqUser target : User) (email perm : String) (note : Note)
    (hperm : perm = "read" ∨ perm = "write")
    (hfind : findNote db noteId = some note)
    (howner : note.createdBy = reqUser.id)
    (htarget : findUserByEmail users email = some target)
    (huniq : collabCount note.collaborators target.id ≤ 1) :
    shareNote db users noteId reqUser email perm =
      (.ok (sharedNote note target.id (permOfString perm),
            ⟨noteId, shareMessage perm note.title reqUser.name, target.id⟩),
       storeNote db noteId (sharedNote note target.id (permOfString perm))) ∧
    collabCount (sharedNote note target.id (permOfString perm)).collaborators
        target.id = 1 ∧
    findCollab (sharedNote note target.id (permOfString perm)).collaborators
        target.id = some ⟨target.id, permOfString perm⟩ ∧
    (1 ≤ collabCount note.collaborators target.id →
       (sharedNote note target.id (permOfString perm)).collaborators.length =
         note.collaborators.length) ∧
    (∀ u, u ≠ target.id →
       (sharedNote note target.id (permOfString perm)).collaborators.filter
           (fun c => c.userId == u) =
         note.collaborators.filter (fun c => c.userId == u)) ∧
    shareNote (storeNote db noteId (sharedNote note target.id (permOfString perm)))
        users noteId reqUser email perm =
      (.ok (sharedNote note target.id (permOfString perm),
            ⟨noteId, shareMessage perm note.title reqUser.name, target.id⟩),
       storeNote db noteId (sharedNote note target.id (permOfString perm))) := by
  have hpb : (perm == "read" || perm == "write") = true := by
    rcases hperm with h | h <;> simp [h]
  have hob : (note.createdBy == reqUser.id) = true := by simp [howner]
  have hnid : note.id = noteId := findNote_id db noteId note hfind
  have hid' : (sharedNote note target.id (permOfString perm)).id = noteId := by
    simpa [sharedNote] using hnid
  have hfind2 := findNote_storeNote db noteId note
    (sharedNote note target.id (permOfString perm)) hfind hid'
  have hob2 : ((sharedNote note target.id (permOfString perm)).createdBy ==
      reqUser.id) = true := by
    simpa [sharedNote] using hob
  refine ⟨?_, upsertCollab_count note.collaborators target.id _ huniq,
    upsertCollab_find note.collaborators target.id _,
    fun h1 => upsertCollab_length note.collaborators target.id _ h1,
    fun u hu => upsertCollab_filter_other note.collaborators target.id _ u hu,
    ?_⟩
  · simp [shareNote, hpb, hfind, hob, htarget, sharedNote]
  · simp only [sharedNote, howner] at hfind2
    simp [shareNote, hpb, hfind2, htarget, sharedNote, howner,
      upsertCollab_idem, storeNote_storeNote]

theorem shareNote_idempotent_upsert_witness :
    shareNote [⟨10, "T", "c", 1, [⟨2, .read⟩], false, 0⟩] [⟨2, "Bob", "b@x"⟩]
        10 ⟨1, "Alice", "a@x"⟩ "b@x" "write" =
      (.ok (⟨10, "T", "c", 1, [⟨2, .write⟩], false, 0⟩,
            ⟨10, shareMessage "write" "T" "Alice", 2⟩),
       [⟨10, "T", "c", 1, [⟨2, .write⟩], false, 0⟩]) ∧
    ([⟨2, Permission.write⟩] : List Collaborator).length =
      ([⟨2, Permission.read⟩] : List Collaborator).length ∧
    shareNote [⟨10, "T", "c", 1, [⟨2, .write⟩], false, 0⟩] [⟨2, "Bob", "b@x"⟩]
        10 ⟨1, "Alice", "a@x"⟩ "b@x" "write" =
      (.ok (⟨10, "T", "c", 1, [⟨2, .write⟩], false, 0⟩,
            ⟨10, shareMessage "write" "T" "Alice", 2⟩),
       [⟨10, "T", "c", 1, [⟨2, .write⟩], false, 0⟩]) := by
  have h := shareNote_idempotent_upsert [⟨10, "T", "c", 1, [⟨2, .read⟩], false, 0⟩]
      [⟨2, "Bob", "b@x"⟩] 10 ⟨1, "Alice", "a@x"⟩ ⟨2, "Bob", "b@x"⟩ "b@x" "write"
      ⟨10, "T", "c", 1, [⟨2, .read⟩], false, 0⟩ (Or.inr rfl) rfl rfl rfl (by decide)
  exact ⟨h.1, h.2.2.2.1 (by decide), h.2.2.2.2.2⟩

end CollabNotes
